import Mathlib

/-!
# Verification of the BlockMate Snippets secure snippet store

Shallow embedding of the core of `src/storage/snippetStorage.ts` and the
PIN-session logic of `src/snippetManager.ts`, together with proofs about the
repository operations, the rate limiter, the persistence (snapshot + backup)
algorithm, the import pipeline and the access-control session check.

Conventions of the embedding:
* JavaScript `Map<string, T>` becomes an association list with unique keys,
  with `mapGet` / `mapSet` / `mapDelete` mirroring `Map.get` / `Map.set` /
  `Map.delete` (replace-in-place on an existing key, append otherwise).
* Timestamps (`Date.now()`, `Date` values) become `Nat` milliseconds.
* The file system is explicit state: the primary snapshot file and the backup
  file each hold either nothing, a parseable array of records, or unreadable /
  unparseable content.
* Fallible methods return a record carrying an `ok : Bool` flag (`false`
  models a thrown exception) together with the state as the method left it.
* The TypeScript field `prefix` is named `pfx` here because `prefix` is a
  Lean keyword.
-/

namespace BlockMate

/-! ## Data model (src/models/snippet.ts) -/

/-- The `Snippet` record, from the `Snippet` interface of
`src/models/snippet.ts`.  `description` and `scope` are optional there;
timestamps are `Nat` milliseconds. -/
structure Snippet where
  id : String
  name : String
  pfx : String
  description : Option String
  body : String
  tags : List String
  fileTypes : List String
  createdAt : Nat
  updatedAt : Nat
  usageCount : Nat
  isFavorite : Bool
  scope : Option String
  deriving Repr, DecidableEq

/-! ## JavaScript `Map` semantics -/

/-- An association-list model of a JavaScript `Map<string, A>`. -/
abbrev SMap (α : Type) := List (String × α)

/-- `Map.get`: value of the first (and, with unique keys, only) binding. -/
def mapGet {α : Type} : SMap α → String → Option α
  | [], _ => none
  | p :: m, k => if p.1 = k then some p.2 else mapGet m k

/-- `Map.has`. -/
def mapHas {α : Type} (m : SMap α) (k : String) : Bool :=
  (mapGet m k).isSome

/-- `Map.set`: replace the binding in place when the key is present,
append otherwise (JavaScript insertion-order semantics). -/
def mapSet {α : Type} : SMap α → String → α → SMap α
  | [], k, v => [(k, v)]
  | p :: m, k, v => if p.1 = k then (k, v) :: m else p :: mapSet m k v

/-- `Map.delete`. -/
def mapDelete {α : Type} : SMap α → String → SMap α
  | [], _ => []
  | p :: m, k => if p.1 = k then m else p :: mapDelete m k

/-- `Array.from(map.values())`. -/
def mapValues {α : Type} (m : SMap α) : List α :=
  m.map Prod.snd

theorem mapGet_mapSet_self {α : Type} (m : SMap α) (k : String) (v : α) :
    mapGet (mapSet m k v) k = some v := by
  induction m with
  | nil => simp [mapSet, mapGet]
  | cons p m ih =>
      by_cases h : p.1 = k
      · simp [mapSet, mapGet, h]
      · simp [mapSet, mapGet, h, ih]

theorem mapGet_mapSet_ne {α : Type} (m : SMap α) (k k' : String) (v : α)
    (h : k' ≠ k) : mapGet (mapSet m k v) k' = mapGet m k' := by
  have h2 : ¬ (k' = k) := h
  have h3 : ¬ (k = k') := Ne.symm h
  induction m with
  | nil => simp [mapSet, mapGet, h3]
  | cons p m ih =>
      by_cases hp : p.1 = k
      · simp [mapSet, mapGet, hp, h2, h3]
      · by_cases hp' : p.1 = k'
        · simp [mapSet, mapGet, hp, hp', h2, h3]
        · simp [mapSet, mapGet, hp, hp', ih]

theorem length_mapSet_of_has {α : Type} (m : SMap α) (k : String) (v : α)
    (h : mapHas m k = true) : (mapSet m k v).length = m.length := by
  induction m with
  | nil => simp [mapHas, mapGet] at h
  | cons p m ih =>
      by_cases hp : p.1 = k
      · simp [mapSet, hp]
      · simp [mapHas, mapGet, hp] at h
        simp [mapSet, hp, ih h]

/-! ## Rate limiter (src/storage/snippetStorage.ts, lines 9-80) -/

/-- `RateLimitEntry` of `snippetStorage.ts`. -/
structure RateLimitEntry where
  count : Nat
  resetTime : Nat
  deriving Repr, DecidableEq

/-- `RATE_LIMIT_WINDOW = 60000` (one minute, in ms). -/
def RATE_LIMIT_WINDOW : Nat := 60000

/-- `RATE_LIMIT_MAX_CALLS = 100`. -/
def RATE_LIMIT_MAX_CALLS : Nat := 100

/-- The window key `` `${operation}_${Math.floor(now / RATE_LIMIT_WINDOW)}` ``. -/
def rateKey (operation : String) (now : Nat) : String :=
  operation ++ "_" ++ toString (now / RATE_LIMIT_WINDOW)

/-- The same key written from the window index instead of the time. -/
def rateKeyW (operation : String) (w : Nat) : String :=
  operation ++ "_" ++ toString w

/-- `checkRateLimit`, lines 46-68: create a fresh entry (count 1) when the key
is absent or its reset time has passed; deny without incrementing at
`RATE_LIMIT_MAX_CALLS`; otherwise increment.  Returns the verdict together
with the updated map. -/
def checkRateLimit (rl : SMap RateLimitEntry) (operation : String) (now : Nat) :
    Bool × SMap RateLimitEntry :=
  let key := rateKey operation now
  match mapGet rl key with
  | none => (true, mapSet rl key ⟨1, now + RATE_LIMIT_WINDOW⟩)
  | some entry =>
      if entry.resetTime < now then
        (true, mapSet rl key ⟨1, now + RATE_LIMIT_WINDOW⟩)
      else if RATE_LIMIT_MAX_CALLS ≤ entry.count then
        (false, rl)
      else
        (true, mapSet rl key ⟨entry.count + 1, entry.resetTime⟩)

/-- `cleanupRateLimits`, lines 73-80: drop every entry whose reset time has
passed. -/
def cleanupRateLimits (rl : SMap RateLimitEntry) (now : Nat) : SMap RateLimitEntry :=
  rl.filter (fun p => !(decide (p.2.resetTime < now)))

/-- A sequence of `checkRateLimit` calls for one operation at the given times,
collecting the verdicts. -/
def rateCalls (rl : SMap RateLimitEntry) (operation : String) :
    List Nat → List Bool × SMap RateLimitEntry
  | [] => ([], rl)
  | t :: ts =>
      let r1 := checkRateLimit rl operation t
      let r2 := rateCalls r1.2 operation ts
      (r1.1 :: r2.1, r2.2)

theorem rateCalls_append (rl : SMap RateLimitEntry) (operation : String)
    (xs ys : List Nat) :
    rateCalls rl operation (xs ++ ys)
      = ((rateCalls rl operation xs).1
           ++ (rateCalls (rateCalls rl operation xs).2 operation ys).1,
         (rateCalls (rateCalls rl operation xs).2 operation ys).2) := by
  induction xs generalizing rl with
  | nil => simp [rateCalls]
  | cons t ts ih => simp [rateCalls, ih]

/-- A time in window `w` is below the end of the window. -/
theorem lt_window_end (t w : Nat) (h : t / RATE_LIMIT_WINDOW = w) :
    t < (w + 1) * RATE_LIMIT_WINDOW := by
  have h1 := Nat.div_add_mod t RATE_LIMIT_WINDOW
  have h2 : t % RATE_LIMIT_WINDOW < RATE_LIMIT_WINDOW :=
    Nat.mod_lt _ (by simp [RATE_LIMIT_WINDOW])
  simp only [RATE_LIMIT_WINDOW] at *
  omega

/-- A time in window `w` is at least the start of the window. -/
theorem window_start_le (t w : Nat) (h : t / RATE_LIMIT_WINDOW = w) :
    w * RATE_LIMIT_WINDOW ≤ t := by
  have := Nat.div_mul_le_self t RATE_LIMIT_WINDOW
  simp only [RATE_LIMIT_WINDOW] at *
  omega

/-- While the counter is below the limit, every further call in the same
window is granted and increments the single entry. -/
theorem rateCalls_within (operation : String) (w r : Nat)
    (hr : (w + 1) * RATE_LIMIT_WINDOW ≤ r) :
    ∀ (times : List Nat) (c : Nat),
      (∀ t ∈ times, t / RATE_LIMIT_WINDOW = w) →
      c + times.length ≤ RATE_LIMIT_MAX_CALLS →
      rateCalls [(rateKeyW operation w, ⟨c, r⟩)] operation times
        = (List.replicate times.length true,
           [(rateKeyW operation w, ⟨c + times.length, r⟩)]) := by
  intro times
  induction times with
  | nil =>
      intro c _ _
      simp [rateCalls]
  | cons t ts ih =>
      intro c hw hc
      have ht : t / RATE_LIMIT_WINDOW = w := hw t (by simp)
      have hkey : rateKey operation t = rateKeyW operation w := by
        simp [rateKey, rateKeyW, ht]
      have htr : ¬ (r < t) := by
        have := lt_window_end t w ht
        omega
      have hcount : ¬ (RATE_LIMIT_MAX_CALLS ≤ c) := by
        simp only [List.length_cons] at hc
        omega
      have hstep :
          checkRateLimit [(rateKeyW operation w, ⟨c, r⟩)] operation t
            = (true, [(rateKeyW operation w, ⟨c + 1, r⟩)]) := by
        simp [checkRateLimit, hkey, mapGet, mapSet, htr, hcount]
      have hts : ∀ t' ∈ ts, t' / RATE_LIMIT_WINDOW = w :=
        fun t' ht' => hw t' (by simp [ht'])
      have hc' : c + 1 + ts.length ≤ RATE_LIMIT_MAX_CALLS := by
        simp only [List.length_cons] at hc
        omega
      have hrec := ih (c + 1) hts hc'
      simp [rateCalls, hstep, hrec]
      exact ⟨by simp [List.replicate_succ], by omega⟩

/-- C5 helper: the very first call in a fresh window creates the entry. -/
theorem checkRateLimit_fresh (operation : String) (t : Nat) :
    checkRateLimit [] operation t
      = (true, [(rateKey operation t, ⟨1, t + RATE_LIMIT_WINDOW⟩)]) := by
  simp [checkRateLimit, mapGet, mapSet]

/-- C5: within one fixed 60-second window, calls 1 through 100 are granted,
call 101 is denied, the denied call leaves the counter at 100 (it does not
increment), and the first call of a different window (whose key differs) is
granted again. -/
theorem rate_limit_fixed_window (operation : String) (w t1 : Nat)
    (mid : List Nat) (tlast tnext : Nat)
    (hmid : mid.length = 99)
    (h1 : t1 / RATE_LIMIT_WINDOW = w)
    (hw : ∀ t ∈ mid, t / RATE_LIMIT_WINDOW = w)
    (hl : tlast / RATE_LIMIT_WINDOW = w)
    (hnext : rateKey operation tnext ≠ rateKeyW operation w) :
    rateCalls [] operation (t1 :: mid ++ [tlast])
      = (true :: (List.replicate 99 true ++ [false]),
         [(rateKeyW operation w, ⟨100, t1 + RATE_LIMIT_WINDOW⟩)])
    ∧ (checkRateLimit [(rateKeyW operation w, ⟨100, t1 + RATE_LIMIT_WINDOW⟩)]
         operation tnext).1 = true := by
  have hkey1 : rateKey operation t1 = rateKeyW operation w := by
    simp [rateKey, rateKeyW, h1]
  have hr : (w + 1) * RATE_LIMIT_WINDOW ≤ t1 + RATE_LIMIT_WINDOW := by
    have := window_start_le t1 w h1
    have h0 : (w + 1) * RATE_LIMIT_WINDOW = w * RATE_LIMIT_WINDOW + RATE_LIMIT_WINDOW := by
      ring
    omega
  have hmidrun :
      rateCalls [(rateKeyW operation w, ⟨1, t1 + RATE_LIMIT_WINDOW⟩)] operation mid
        = (List.replicate 99 true,
           [(rateKeyW operation w, ⟨100, t1 + RATE_LIMIT_WINDOW⟩)]) := by
    have := rateCalls_within operation w (t1 + RATE_LIMIT_WINDOW) hr mid 1 hw
      (by simp [hmid, RATE_LIMIT_MAX_CALLS])
    simpa [hmid] using this
  have hkeyl : rateKey operation tlast = rateKeyW operation w := by
    simp [rateKey, rateKeyW, hl]
  have htlr : ¬ (t1 + RATE_LIMIT_WINDOW < tlast) := by
    have := lt_window_end tlast w hl
    have := window_start_le t1 w h1
    omega
  have hlast :
      checkRateLimit [(rateKeyW operation w, ⟨100, t1 + RATE_LIMIT_WINDOW⟩)]
        operation tlast
        = (false, [(rateKeyW operation w, ⟨100, t1 + RATE_LIMIT_WINDOW⟩)]) := by
    simp [checkRateLimit, hkeyl, mapGet, htlr, RATE_LIMIT_MAX_CALLS]
  constructor
  · rw [rateCalls_append]
    simp [rateCalls, checkRateLimit_fresh, hkey1, hmidrun, hlast]
  · have hne : rateKeyW operation w ≠ rateKey operation tnext := Ne.symm hnext
    simp [checkRateLimit, mapGet, hne]

/-- Witness for C5 at a concrete schedule: 101 calls at time 0 for
operation `op`, then one call in the next window at time 60000. -/
theorem rate_limit_fixed_window_witness :
    rateCalls [] "op" (0 :: (List.replicate 99 0 ++ [0]))
      = (true :: (List.replicate 99 true ++ [false]),
         [(rateKeyW "op" 0, ⟨100, 0 + RATE_LIMIT_WINDOW⟩)])
    ∧ (checkRateLimit [(rateKeyW "op" 0, ⟨100, 0 + RATE_LIMIT_WINDOW⟩)]
         "op" 60000).1 = true :=
  rate_limit_fixed_window "op" 0 0 (List.replicate 99 0) 0 60000
    (by simp) (by decide) (by simp) (by decide) (by decide)

/-! ## Persistence: snapshot and backup files (lines 146-211) -/

/-- What a snapshot file on disk can hold: a serialized array of records that
reads back and parses, or content whose read or parse (including a top-level
value that is not an array) throws. -/
inductive FileContent where
  | valid : List Snippet → FileContent
  | invalid : FileContent
  deriving Repr, DecidableEq

/-- The primary snapshot file (`snippets.json`) and the backup file
(`snippets.backup.json`); `none` means the file does not exist. -/
structure StorageFiles where
  primary : Option FileContent
  backup : Option FileContent
  deriving Repr, DecidableEq

/-- `JSON.stringify(Array.from(this.snippets.values()))`. -/
def serialize (m : SMap Snippet) : FileContent :=
  FileContent.valid (mapValues m)

/-- `saveSnippets`, lines 196-211: if the primary snapshot exists, copy it
verbatim to the backup slot, then overwrite the primary snapshot with the
serialized full map. -/
def saveSnippetsFS (fs : StorageFiles) (m : SMap Snippet) : StorageFiles :=
  let fs1 :=
    match fs.primary with
    | some c => { fs with backup := some c }
    | none => fs
  { fs1 with primary := some (serialize m) }

/-- The `snippetsArray.forEach` rehydration loop of `loadSnippets` /
`loadFromBackup`: clear the map, then `set` each record under its own id
(the `new Date(...)` conversions are the identity in this embedding). -/
def rehydrate (arr : List Snippet) : SMap Snippet :=
  arr.foldl (fun m s => mapSet m s.id s) []

/-- `loadFromBackup`, lines 173-191: load the backup if it exists and parses;
a failure is logged and swallowed, leaving the map as it was. -/
def loadFromBackup (m0 : SMap Snippet) (fs : StorageFiles) : SMap Snippet :=
  match fs.backup with
  | none => m0
  | some (FileContent.valid arr) => rehydrate arr
  | some FileContent.invalid => m0

/-- `loadSnippets`, lines 149-168: load the primary snapshot if it exists;
on read or parse failure fall back to `loadFromBackup`. -/
def loadSnippets (m0 : SMap Snippet) (fs : StorageFiles) : SMap Snippet :=
  match fs.primary with
  | none => m0
  | some (FileContent.valid arr) => rehydrate arr
  | some FileContent.invalid => loadFromBackup m0 fs

/-- `initialize`, lines 114-129: the map starts empty and `loadSnippets`
fills it (directory creation is not modelled; it can only fail fatally). -/
def initializeLoad (fs : StorageFiles) : SMap Snippet :=
  loadSnippets [] fs

/-- C6: `initialize()` loads the primary snapshot when it parses; falls back
to exactly the backup's record set when the primary exists but fails to read
or parse and the backup is valid; and yields the empty store when both fail. -/
theorem initialize_load_recovery (fs : StorageFiles) :
    (∀ arr, fs.primary = some (FileContent.valid arr) →
        initializeLoad fs = rehydrate arr)
    ∧ (∀ arr, fs.primary = some FileContent.invalid →
        fs.backup = some (FileContent.valid arr) →
        initializeLoad fs = rehydrate arr)
    ∧ (fs.primary = some FileContent.invalid →
        (fs.backup = none ∨ fs.backup = some FileContent.invalid) →
        initializeLoad fs = []) := by
  refine ⟨?_, ?_, ?_⟩
  · intro arr hp
    simp [initializeLoad, loadSnippets, hp]
  · intro arr hp hb
    simp [initializeLoad, loadSnippets, loadFromBackup, hp, hb]
  · intro hp hb
    rcases hb with hb | hb <;>
      simp [initializeLoad, loadSnippets, loadFromBackup, hp, hb]

/-- A concrete record used by witnesses and counterexamples. -/
def sample1 : Snippet :=
  { id := "id1", name := "hello", pfx := "hl", description := none,
    body := "print(1)", tags := ["demo"], fileTypes := ["py"],
    createdAt := 5, updatedAt := 5, usageCount := 7, isFavorite := false,
    scope := some "global" }

/-- Witness for C6: a corrupt primary snapshot next to a valid backup holding
`sample1` makes `initialize()` yield exactly the backup's record set. -/
theorem initialize_load_recovery_witness :
    initializeLoad ⟨some FileContent.invalid, some (FileContent.valid [sample1])⟩
      = rehydrate [sample1] :=
  (initialize_load_recovery _).2.1 [sample1] rfl rfl

/-! ## Repository operations (lines 213-428) -/

/-- The mutable in-memory state of a `SnippetStorage` instance. -/
structure RepoState where
  snippets : SMap Snippet
  rateLimitMap : SMap RateLimitEntry
  deriving Repr, DecidableEq

/-- The outcome of a repository method: `ok = false` models a thrown
exception; `state` and `fs` are the in-memory state and the on-disk files as
the method left them. -/
structure OpResult where
  ok : Bool
  state : RepoState
  fs : StorageFiles
  deriving Repr, DecidableEq

/-- The shared prelude of every repository method:
`this.cleanupRateLimits()` followed by `this.checkRateLimit(operation)`. -/
def rateGate (st : RepoState) (operation : String) (now : Nat) :
    Bool × RepoState :=
  let rl0 := cleanupRateLimits st.rateLimitMap now
  let res := checkRateLimit rl0 operation now
  (res.1, { st with rateLimitMap := res.2 })

/-- `saveSnippet`, lines 246-257: gate, then `set` under the record's own id
(silently replacing any existing record) and persist. -/
def saveSnippet (st : RepoState) (fs : StorageFiles) (now : Nat)
    (s : Snippet) : OpResult :=
  let g := rateGate st "saveSnippet" now
  if !g.1 then ⟨false, g.2, fs⟩
  else
    let snippets := mapSet g.2.snippets s.id s
    ⟨true, { g.2 with snippets := snippets }, saveSnippetsFS fs snippets⟩

/-- `Partial<Snippet>`: each field is either absent (`none`) or supplies a
value that the spread `{ ...snippet, ...updates }` writes over the record.
For the optional source fields `description` and `scope` the supplied value
is itself optional. -/
structure SnippetUpdate where
  id : Option String
  name : Option String
  pfx : Option String
  description : Option (Option String)
  body : Option String
  tags : Option (List String)
  fileTypes : Option (List String)
  createdAt : Option Nat
  updatedAt : Option Nat
  usageCount : Option Nat
  isFavorite : Option Bool
  scope : Option (Option String)
  deriving Repr, DecidableEq

/-- The update with every field absent. -/
def emptyUpdate : SnippetUpdate :=
  ⟨none, none, none, none, none, none, none, none, none, none, none, none⟩

/-- `{ ...snippet, ...updates, updatedAt: new Date() }` of `updateSnippet`:
fields present in `updates` win, and `updatedAt` is always freshened last. -/
def applyUpdates (s : Snippet) (u : SnippetUpdate) (now : Nat) : Snippet :=
  { id := u.id.getD s.id
    name := u.name.getD s.name
    pfx := u.pfx.getD s.pfx
    description := u.description.getD s.description
    body := u.body.getD s.body
    tags := u.tags.getD s.tags
    fileTypes := u.fileTypes.getD s.fileTypes
    createdAt := u.createdAt.getD s.createdAt
    updatedAt := now
    usageCount := u.usageCount.getD s.usageCount
    isFavorite := u.isFavorite.getD s.isFavorite
    scope := u.scope.getD s.scope }

/-- `updateSnippet`, lines 262-279: gate, throw `NotFound` when the id is
absent, otherwise merge, store under the looked-up id and persist. -/
def updateSnippet (st : RepoState) (fs : StorageFiles) (now : Nat)
    (id : String) (u : SnippetUpdate) : OpResult :=
  let g := rateGate st "updateSnippet" now
  if !g.1 then ⟨false, g.2, fs⟩
  else
    match mapGet g.2.snippets id with
    | none => ⟨false, g.2, fs⟩
    | some s =>
        let snippets := mapSet g.2.snippets id (applyUpdates s u now)
        ⟨true, { g.2 with snippets := snippets }, saveSnippetsFS fs snippets⟩

/-- `deleteSnippet`, lines 284-299: gate, throw `NotFound` when absent,
otherwise delete and persist. -/
def deleteSnippet (st : RepoState) (fs : StorageFiles) (now : Nat)
    (id : String) : OpResult :=
  let g := rateGate st "deleteSnippet" now
  if !g.1 then ⟨false, g.2, fs⟩
  else if !(mapHas g.2.snippets id) then ⟨false, g.2, fs⟩
  else
    let snippets := mapDelete g.2.snippets id
    ⟨true, { g.2 with snippets := snippets }, saveSnippetsFS fs snippets⟩

/-- `incrementUsage`, lines 361-376: gate; an absent id is a silent no-op
(no throw, no persistence); otherwise bump the counter, refresh `updatedAt`
and persist. -/
def incrementUsage (st : RepoState) (fs : StorageFiles) (now : Nat)
    (id : String) : OpResult :=
  let g := rateGate st "incrementUsage" now
  if !g.1 then ⟨false, g.2, fs⟩
  else
    match mapGet g.2.snippets id with
    | none => ⟨true, g.2, fs⟩
    | some s =>
        let s' := { s with usageCount := s.usageCount + 1, updatedAt := now }
        let snippets := mapSet g.2.snippets id s'
        ⟨true, { g.2 with snippets := snippets }, saveSnippetsFS fs snippets⟩

/-- `getAllSnippets`, lines 216-226: gate, then return the values. -/
def getAllSnippets (st : RepoState) (now : Nat) :
    Bool × RepoState × List Snippet :=
  let g := rateGate st "getAllSnippets" now
  if !g.1 then (false, g.2, [])
  else (true, g.2, mapValues g.2.snippets)

/-- `getSnippet`, lines 231-241: gate, then `Map.get`. -/
def getSnippet (st : RepoState) (now : Nat) (id : String) :
    Bool × RepoState × Option Snippet :=
  let g := rateGate st "getSnippet" now
  if !g.1 then (false, g.2, none)
  else (true, g.2, mapGet g.2.snippets id)

/-- The outcome of `exportSnippets`: additionally carries what was written to
the caller-chosen destination path (`none` when nothing was written). -/
structure ExportResult where
  ok : Bool
  state : RepoState
  fs : StorageFiles
  written : Option (List Snippet)
  deriving Repr, DecidableEq

/-- `exportSnippets`, lines 416-428: gate, then serialize the values to the
destination path.  It never touches the snapshot or backup files and calls
no persistence helper. -/
def exportSnippets (st : RepoState) (fs : StorageFiles) (now : Nat) :
    ExportResult :=
  let g := rateGate st "exportSnippets" now
  if !g.1 then ⟨false, g.2, fs, none⟩
  else ⟨true, g.2, fs, some (mapValues g.2.snippets)⟩

/-- The rate gate leaves the record map untouched. -/
theorem rateGate_snippets (st : RepoState) (operation : String) (now : Nat) :
    (rateGate st operation now).2.snippets = st.snippets := rfl

/-- C8: `saveSnippet` called with an id already in the store succeeds (no
error is raised), silently replaces the existing record, and leaves the
total record count unchanged. -/
theorem save_replaces_existing (st : RepoState) (fs : StorageFiles)
    (now : Nat) (s old : Snippet)
    (hold : mapGet st.snippets s.id = some old)
    (hgate : (rateGate st "saveSnippet" now).1 = true) :
    (saveSnippet st fs now s).ok = true
    ∧ mapGet (saveSnippet st fs now s).state.snippets s.id = some s
    ∧ (saveSnippet st fs now s).state.snippets.length = st.snippets.length := by
  have hhas : mapHas st.snippets s.id = true := by
    simp [mapHas, hold]
  refine ⟨?_, ?_, ?_⟩
  · simp [saveSnippet, hgate]
  · simp [saveSnippet, hgate, rateGate_snippets, mapGet_mapSet_self]
  · simp [saveSnippet, hgate]
    exact length_mapSet_of_has st.snippets s.id s hhas

/-- A state whose record map holds exactly `sample1` and whose rate-limit
map is empty. -/
def stOne : RepoState := ⟨[("id1", sample1)], []⟩

/-- The empty file pair (fresh store: neither snapshot nor backup exists). -/
def freshFiles : StorageFiles := ⟨none, none⟩

/-- A record with the same id as `sample1` but different content. -/
def sample1b : Snippet :=
  { sample1 with name := "hello2", body := "print(2)", usageCount := 0 }

/-- Witness for C8: overwriting `sample1` with `sample1b` under the same id. -/
theorem save_replaces_existing_witness :
    (saveSnippet stOne freshFiles 0 sample1b).ok = true
    ∧ mapGet (saveSnippet stOne freshFiles 0 sample1b).state.snippets
        sample1b.id = some sample1b
    ∧ (saveSnippet stOne freshFiles 0 sample1b).state.snippets.length
        = stOne.snippets.length :=
  save_replaces_existing stOne freshFiles 0 sample1b sample1 (by decide)
    (by decide)

/-- C10: `exportSnippets` writes the serialized record collection to the
caller-chosen destination and leaves the in-memory record map, the primary
snapshot file and the backup file unchanged — it performs no backup
rotation. -/
theorem export_is_frame_pure (st : RepoState) (fs : StorageFiles) (now : Nat) :
    (exportSnippets st fs now).state.snippets = st.snippets
    ∧ (exportSnippets st fs now).fs = fs
    ∧ (exportSnippets st fs now).written
        = (if (exportSnippets st fs now).ok then some (mapValues st.snippets)
           else none) := by
  unfold exportSnippets
  by_cases h : (rateGate st "exportSnippets" now).1 <;>
    simp [h, rateGate_snippets]

/-! ## Import pipeline (lines 430-717) -/

/-- Is the second character list a prefix of the first argument's start? -/
def listIsPref : List Char → List Char → Bool
  | [], _ => true
  | _ :: _, [] => false
  | a :: as, b :: bs => a = b && listIsPref as bs

/-- Does the second character list occur inside the first? -/
def listContainsSub : List Char → List Char → Bool
  | _, [] => true
  | [], _ :: _ => false
  | c :: cs, p :: ps => listIsPref (p :: ps) (c :: cs) || listContainsSub cs (p :: ps)

/-- JavaScript `s.includes(pat)` (substring containment). -/
def strContains (s pat : String) : Bool :=
  listContainsSub s.data pat.data

/-- JavaScript `s.toLowerCase()` (ASCII, which covers every pattern the
source compares against). -/
def strToLower (s : String) : String :=
  String.mk (s.data.map Char.toLower)

/-- A candidate element of an imported JSON array.  Each field of the
`Snippet` shape is either a value of the right primitive type (`some`) or
absent / of the wrong type (`none`); array elements can themselves be
non-strings. -/
structure RawSnippet where
  id : Option String
  name : Option String
  pfx : Option String
  description : Option String
  body : Option String
  tags : Option (List (Option String))
  fileTypes : Option (List (Option String))
  usageCount : Option Nat
  isFavorite : Option Bool
  scope : Option String
  deriving Repr, DecidableEq

/-- The `/^[a-zA-Z0-9.-]+$/` test applied to each file type. -/
def fileTypeFormatOk (ft : String) : Bool :=
  decide (0 < ft.length)
    && ft.toList.all (fun c => c.isAlphanum || c = '.' || c = '-')

/-- `validateSnippet`, lines 569-717.  The source is an early-return chain;
each `return false` branch is one conjunct here, in source order: type checks
for `id`/`name`/`prefix`/`body`/`tags`/`fileTypes`, non-emptiness, length
ceilings (name 200, prefix 50, body 100000, description 1000 when present —
a falsy description skips the check, which only matters for the empty string
and is equivalent), at most **50** tags each a string of ≤50 chars without
`<`, `>` or the (case-sensitive) substring `script`, at most 20 file types
each a string of ≤20 chars matching `[a-zA-Z0-9.-]+`, and a lowercased body
free of `<script`, `javascript:`, `data:`, `vbscript:`. -/
def validateSnippet (r : RawSnippet) : Bool :=
  match r.id, r.name, r.pfx, r.body, r.tags, r.fileTypes with
  | some _, some name, some pfx, some body, some tags, some fileTypes =>
      decide (0 < name.length) && decide (0 < pfx.length)
        && decide (0 < body.length)
        && decide (name.length ≤ 200) && decide (pfx.length ≤ 50)
        && decide (body.length ≤ 100000)
        && (match r.description with
            | some d => decide (d.length ≤ 1000)
            | none => true)
        && decide (tags.length ≤ 50)
        && tags.all (fun t => t.isSome)
        && tags.all (fun t =>
            match t with
            | some tag =>
                decide (tag.length ≤ 50)
                  && !(strContains tag "<") && !(strContains tag ">")
                  && !(strContains tag "script")
            | none => true)
        && decide (fileTypes.length ≤ 20)
        && fileTypes.all (fun t => t.isSome)
        && fileTypes.all (fun t =>
            match t with
            | some ft => decide (ft.length ≤ 20) && fileTypeFormatOk ft
            | none => true)
        && !(strContains (strToLower body) "<script")
        && !(strContains (strToLower body) "javascript:")
        && !(strContains (strToLower body) "data:")
        && !(strContains (strToLower body) "vbscript:")
  | _, _, _, _, _, _ => false

/-- What `JSON.parse` made of the import file's text. -/
inductive ImportParse where
  | parseError : ImportParse
  | nonArray : ImportParse
  | array : List RawSnippet → ImportParse
  deriving Repr, DecidableEq

/-- The import source file as the repository observes it: its byte size, a
flag for the `__proto__` / `constructor` / `prototype` raw-text scan, and
the parse outcome. -/
structure ImportSource where
  size : Nat
  hasDangerousPatterns : Bool
  parsed : ImportParse
  deriving Repr, DecidableEq

/-- A validated import candidate becomes the stored record: a fresh id and
fresh `createdAt`/`updatedAt`; every other field is carried over.  The
`getD` defaults on `name`/`prefix`/`body`/`tags`/`fileTypes` never fire on a
validated candidate; `usageCount`/`isFavorite` are not validated by the
source and default to `0`/`false` here when absent. -/
def acceptRaw (r : RawSnippet) (newId : String) (now : Nat) : Snippet :=
  { id := newId
    name := r.name.getD ""
    pfx := r.pfx.getD ""
    description := r.description
    body := r.body.getD ""
    tags := (r.tags.getD []).map (fun t => t.getD "")
    fileTypes := (r.fileTypes.getD []).map (fun t => t.getD "")
    createdAt := now
    updatedAt := now
    usageCount := r.usageCount.getD 0
    isFavorite := r.isFavorite.getD false
    scope := r.scope }

/-- `importSnippets`, lines 433-564, with `freshIds` standing for the ids
`generateId()` produces (one per accepted element, in order).  The order of
effects is the source's: rate gate, size ceiling (10 MB), dangerous-pattern
scan, parse, array check, 10000-entry ceiling, then — **before** any
per-element validation — `this.snippets.clear()` when `clearExisting` is
requested, then per-element validation, the `No valid snippets found`
throw when nothing validated, insertion of the accepted elements, and one
`saveSnippets`. -/
def importSnippets (st : RepoState) (fs : StorageFiles) (now : Nat)
    (src : ImportSource) (clearExisting : Bool) (freshIds : Nat → String) :
    OpResult :=
  let g := rateGate st "importSnippets" now
  if !g.1 then ⟨false, g.2, fs⟩
  else if 10 * 1024 * 1024 < src.size then ⟨false, g.2, fs⟩
  else if src.hasDangerousPatterns then ⟨false, g.2, fs⟩
  else
    match src.parsed with
    | ImportParse.parseError => ⟨false, g.2, fs⟩
    | ImportParse.nonArray => ⟨false, g.2, fs⟩
    | ImportParse.array elems =>
        if 10000 < elems.length then ⟨false, g.2, fs⟩
        else
          let st1 := if clearExisting then { g.2 with snippets := [] } else g.2
          let valids := elems.filter validateSnippet
          let accepted := valids.enum.map
            (fun p => acceptRaw p.2 (freshIds p.1) now)
          if accepted.length = 0 then ⟨false, st1, fs⟩
          else
            let snippets := accepted.foldl
              (fun m s => mapSet m s.id s) st1.snippets
            ⟨true, { st1 with snippets := snippets },
              saveSnippetsFS fs snippets⟩

/-! ## C1: import with clearExisting wipes the store before validation -/

/-- A candidate that fails validation (its `name` is not a string). -/
def badRaw : RawSnippet :=
  ⟨some "x", none, some "p", none, some "b", some [], some [], none, none,
    none⟩

/-- An import source whose only element is invalid. -/
def srcAllInvalid : ImportSource :=
  ⟨100, false, ImportParse.array [badRaw]⟩

/-- C1, observed divergence: an import with `clearExisting` whose every
candidate fails validation does throw (`No valid snippets found in file.`),
but the record map has already been cleared by the eager
`this.snippets.clear()` at line 499, which runs before per-element
validation — the store is NOT left unchanged as the specification requires. -/
theorem import_clears_store_before_validation :
    validateSnippet badRaw = false
    ∧ (importSnippets stOne freshFiles 0 srcAllInvalid true
        (fun _ => "fresh")).ok = false
    ∧ (importSnippets stOne freshFiles 0 srcAllInvalid true
        (fun _ => "fresh")).state.snippets = []
    ∧ stOne.snippets ≠ [] :=
  ⟨rfl, rfl, rfl, by decide⟩

/-! ## C3: tag-count ceilings on the two admission paths -/

/-- The empty repository state. -/
def emptyState : RepoState := ⟨[], []⟩

/-- A fully valid candidate except that it carries 21 tags. -/
def raw21 : RawSnippet :=
  ⟨some "old", some "n", some "p", none, some "b",
    some (List.replicate 21 (some "t")), some [some "js"], none, none, none⟩

/-- An import source holding only `raw21`. -/
def src21 : ImportSource :=
  ⟨100, false, ImportParse.array [raw21]⟩

/-- C3, counterexample: a candidate with 21 tags passes `validateSnippet`
(whose ceiling is 50, line 656) and is admitted to the store by the import
path with all 21 tags. -/
theorem import_admits_21_tags :
    validateSnippet raw21 = true
    ∧ (importSnippets emptyState freshFiles 0 src21 false
        (fun _ => "fresh1")).ok = true
    ∧ (mapGet (importSnippets emptyState freshFiles 0 src21 false
        (fun _ => "fresh1")).state.snippets "fresh1").map
          (fun s => s.tags.length) = some 21
    ∧ 20 < 21 :=
  ⟨rfl, rfl, rfl, by decide⟩

/-! The interactive creation path: the tags `validateInput` callback of
`showSnippetInputDialog` (`src/snippetManager.ts`, lines 726-792). -/

/-- The dangerous-pattern denylist of the tags `validateInput` callback. -/
def tagDangerousPatterns : List String :=
  ["<script", "<iframe", "<object", "<embed", "<form", "javascript:",
   "data:", "vbscript:", "onload", "onerror", "alert(", "confirm(",
   "prompt(", "eval(", "Function(", "../../../", "../.././", "../../../../",
   "../", "..\\", "%3Cscript%3E", "%3C/script%3E", "etc/passwd",
   "etc/shadow", "windows/system32", "c:\\windows"]

/-- JavaScript `value.split(",")`. -/
def splitComma : List Char → List (List Char)
  | [] => [[]]
  | c :: cs =>
      let r := splitComma cs
      if c = ',' then [] :: r
      else
        match r with
        | [] => [[c]]
        | g :: gs => (c :: g) :: gs

/-- JavaScript `s.trim()` (ASCII whitespace suffices for the inputs here). -/
def strTrim (s : String) : String :=
  String.mk (((s.data.dropWhile Char.isWhitespace).reverse.dropWhile
    Char.isWhitespace).reverse)

/-- `value.split(",").map(t => t.trim()).filter(t => t.length > 0)`. -/
def parseTags (value : String) : List String :=
  ((splitComma value.data).map (fun l => strTrim (String.mk l))).filter
    (fun t => decide (0 < t.length))

/-- The first dangerous pattern the tag contains
(`tag.toLowerCase().includes(pattern.toLowerCase())`). -/
def tagDangerousHit (tag : String) : Option String :=
  tagDangerousPatterns.find?
    (fun p => strContains (strToLower tag) (strToLower p))

/-- The `/<[^>]*>/` test: some `<` is followed by a later `>`. -/
def hasHtmlTagPattern (s : String) : Bool :=
  htmlScan s.data
where
  htmlScan : List Char → Bool
    | [] => false
    | c :: rest =>
        if c = '<' then rest.contains '>' || htmlScan rest
        else htmlScan rest

/-- The per-tag checks of the callback's loop, in source order. -/
def tagError (tag : String) : Option String :=
  match tagDangerousHit tag with
  | some p => some ("Tag contains dangerous pattern: " ++ p)
  | none =>
      if hasHtmlTagPattern tag then
        some "Tags cannot contain HTML/XML tags"
      else if 50 < tag.length then
        some "Tag is too long. Maximum 50 characters allowed."
      else none

/-- The callback iterates the parsed tags and returns the first error. -/
def firstTagError : List String → Option String
  | [] => none
  | t :: ts =>
      match tagError t with
      | some e => some e
      | none => firstTagError ts

/-- The tags `validateInput` callback, lines 729-791: `null` (here `none`)
means the input is accepted; a falsy (empty) value is accepted outright;
otherwise the per-tag loop runs and finally the 20-tag ceiling. -/
def validateTagsInput (value : String) : Option String :=
  if value = "" then none
  else
    let tags := parseTags value
    match firstTagError tags with
    | some e => some e
    | none =>
        if 20 < tags.length then
          some "Too many tags. Maximum 20 tags allowed."
        else none

/-- C3, amended: the two admission paths enforce different tag-count
ceilings — the bulk-import validator rejects a candidate only above 50 tags,
while the interactive creation dialog rejects its tags input above 20. -/
theorem tag_count_ceilings :
    (∀ (r : RawSnippet) (l : List (Option String)), r.tags = some l →
        50 < l.length → validateSnippet r = false)
    ∧ (∀ value : String, 20 < (parseTags value).length →
        validateTagsInput value ≠ none) := by
  constructor
  · intro r l htags h50
    have hdec : decide (l.length ≤ 50) = false := by
      simp
      omega
    cases hid : r.id <;> cases hname : r.name <;> cases hpfx : r.pfx <;>
      cases hbody : r.body <;> cases hft : r.fileTypes <;>
        simp [validateSnippet, hid, hname, hpfx, hbody, htags, hft, hdec]
  · intro value h20
    have hv : ¬ (value = "") := by
      intro hv
      rw [hv] at h20
      exact absurd h20 (by decide)
    unfold validateTagsInput
    simp only [hv, if_false]
    cases hfe : firstTagError (parseTags value) with
    | some e => simp [hfe]
    | none => simp [hfe, h20]

/-- A fully valid candidate except that it carries 51 tags (rejected even by
the import validator). -/
def raw51 : RawSnippet :=
  ⟨some "old", some "n", some "p", none, some "b",
    some (List.replicate 51 (some "t")), some [some "js"], none, none, none⟩

/-- A tags input of 21 one-letter tags. -/
def tags21Input : String :=
  "a,a,a,a,a,a,a,a,a,a,a,a,a,a,a,a,a,a,a,a,a"

/-- Witness for the amended C3 at concrete inputs. -/
theorem tag_count_ceilings_witness :
    validateSnippet raw51 = false ∧ validateTagsInput tags21Input ≠ none :=
  ⟨tag_count_ceilings.1 raw51 (List.replicate 51 (some "t")) rfl (by decide),
   tag_count_ceilings.2 tags21Input (by decide)⟩

/-! ## C2: `createdAt` immutability and `usageCount` monotonicity -/

/-- The single mutation step kinds named by the claim's sources:
`updateSnippet` (with its `Partial<Snippet>`) and `incrementUsage`, each
tagged with the call time. -/
inductive UIOp where
  | upd : Nat → String → SnippetUpdate → UIOp
  | inc : Nat → String → UIOp
  deriving Repr, DecidableEq

/-- Run one such operation. -/
def runUIOp (st : RepoState) (fs : StorageFiles) : UIOp → OpResult
  | UIOp.upd now id u => updateSnippet st fs now id u
  | UIOp.inc now id => incrementUsage st fs now id

/-- Run a sequence of such operations (failed calls leave the state they
threw with, exactly as the source does). -/
def runUIOps : RepoState → StorageFiles → List UIOp → RepoState × StorageFiles
  | st, fs, [] => (st, fs)
  | st, fs, o :: os =>
      let r := runUIOp st fs o
      runUIOps r.state r.fs os

/-- An operation whose `Partial<Snippet>` does not touch `createdAt` or
`usageCount` (every `incrementUsage` qualifies). -/
def benignOp : UIOp → Bool
  | UIOp.upd _ _ u => u.createdAt.isNone && u.usageCount.isNone
  | UIOp.inc _ _ => true

/-- One benign step keeps `createdAt` and never decreases `usageCount` for a
record already in the store. -/
theorem uiop_step_invariant (st : RepoState) (fs : StorageFiles) (o : UIOp)
    (k : String) (s : Snippet)
    (hb : benignOp o = true)
    (hs : mapGet st.snippets k = some s) :
    ∃ s', mapGet (runUIOp st fs o).state.snippets k = some s'
      ∧ s'.createdAt = s.createdAt ∧ s.usageCount ≤ s'.usageCount := by
  cases o with
  | upd now id u =>
      simp only [benignOp, Bool.and_eq_true, Option.isNone_iff_eq_none] at hb
      obtain ⟨hbc, hbu⟩ := hb
      unfold runUIOp updateSnippet
      by_cases hg : (rateGate st "updateSnippet" now).1
      · simp only [hg, Bool.not_true, Bool.false_eq_true, if_false]
        rw [rateGate_snippets]
        cases hget : mapGet st.snippets id with
        | none =>
            exact ⟨s, by simpa [rateGate_snippets] using hs, rfl, le_refl _⟩
        | some s0 =>
            by_cases hk : k = id
            · subst hk
              rw [hs] at hget
              injection hget with hget
              subst hget
              refine ⟨applyUpdates s u now, ?_, ?_, ?_⟩
              · simp [mapGet_mapSet_self]
              · simp [applyUpdates, hbc]
              · simp [applyUpdates, hbu]
            · exact ⟨s, by
                simpa [rateGate_snippets, mapGet_mapSet_ne _ _ _ _ hk]
                  using hs, rfl, le_refl _⟩
      · simp only [hg, Bool.not_false, if_true]
        exact ⟨s, by simpa [rateGate_snippets] using hs, rfl, le_refl _⟩
  | inc now id =>
      unfold runUIOp incrementUsage
      by_cases hg : (rateGate st "incrementUsage" now).1
      · simp only [hg, Bool.not_true, Bool.false_eq_true, if_false]
        rw [rateGate_snippets]
        cases hget : mapGet st.snippets id with
        | none =>
            exact ⟨s, by simpa [rateGate_snippets] using hs, rfl, le_refl _⟩
        | some s0 =>
            by_cases hk : k = id
            · subst hk
              rw [hs] at hget
              injection hget with hget
              subst hget
              exact ⟨{ s with usageCount := s.usageCount + 1, updatedAt := now },
                by simp [mapGet_mapSet_self], rfl, by simp⟩
            · exact ⟨s, by
                simpa [rateGate_snippets, mapGet_mapSet_ne _ _ _ _ hk]
                  using hs, rfl, le_refl _⟩
      · simp only [hg, Bool.not_false, if_true]
        exact ⟨s, by simpa [rateGate_snippets] using hs, rfl, le_refl _⟩

/-- C2, amended: over every sequence of `updateSnippet` / `incrementUsage`
calls whose partial updates leave `createdAt` and `usageCount` unspecified,
a record in the store keeps its `createdAt` forever and its `usageCount`
never decreases.  (The unamended claim, over arbitrary `partialFields`,
fails: see the counterexample.) -/
theorem benign_ops_keep_createdAt_usage (ops : List UIOp) (st : RepoState)
    (fs : StorageFiles) (k : String) (s : Snippet)
    (hb : ∀ o ∈ ops, benignOp o = true)
    (hs : mapGet st.snippets k = some s) :
    ∃ s', mapGet (runUIOps st fs ops).1.snippets k = some s'
      ∧ s'.createdAt = s.createdAt ∧ s.usageCount ≤ s'.usageCount := by
  induction ops generalizing st fs s with
  | nil => exact ⟨s, hs, rfl, le_refl _⟩
  | cons o os ih =>
      obtain ⟨s1, h1, hc1, hu1⟩ :=
        uiop_step_invariant st fs o k s (hb o (by simp)) hs
      obtain ⟨s2, h2, hc2, hu2⟩ :=
        ih (runUIOp st fs o).state (runUIOp st fs o).fs s1
          (fun o' ho' => hb o' (List.mem_cons_of_mem o ho')) h1
      exact ⟨s2, by simpa [runUIOps] using h2, hc2.trans hc1,
        le_trans hu1 hu2⟩

/-- A `Partial<Snippet>` that only renames. -/
def updName : SnippetUpdate :=
  ⟨none, some "renamed", none, none, none, none, none, none, none, none,
    none, none⟩

/-- Witness for the amended C2: a benign rename followed by an
`incrementUsage` keeps `sample1`'s `createdAt` and does not decrease its
`usageCount`. -/
theorem benign_ops_keep_createdAt_usage_witness :
    ∃ s', mapGet (runUIOps stOne freshFiles
        [UIOp.upd 8 "id1" updName, UIOp.inc 9 "id1"]).1.snippets "id1"
        = some s'
      ∧ s'.createdAt = sample1.createdAt
      ∧ sample1.usageCount ≤ s'.usageCount :=
  benign_ops_keep_createdAt_usage
    [UIOp.upd 8 "id1" updName, UIOp.inc 9 "id1"] stOne freshFiles "id1"
    sample1 (by decide) (by decide)

/-- A `Partial<Snippet>` that overwrites `createdAt` and `usageCount`. -/
def updClobber : SnippetUpdate :=
  ⟨none, none, none, none, none, none, none, some 999, none, some 0, none,
    none⟩

/-- C2, counterexample: `updateSnippet` with a `Partial<Snippet>` that
specifies `createdAt` and `usageCount` rewrites `createdAt` (5 becomes 999)
and decreases `usageCount` (7 becomes 0) — the spread
`{ ...snippet, ...updates }` lets `updates` win on every field. -/
theorem update_clobbers_createdAt_usage :
    (mapGet (updateSnippet stOne freshFiles 9 "id1" updClobber).state.snippets
      "id1").map Snippet.createdAt = some 999
    ∧ (mapGet stOne.snippets "id1").map Snippet.createdAt = some 5
    ∧ (mapGet (updateSnippet stOne freshFiles 9 "id1"
        updClobber).state.snippets "id1").map Snippet.usageCount = some 0
    ∧ (mapGet stOne.snippets "id1").map Snippet.usageCount = some 7
    ∧ (999 : Nat) ≠ 5 ∧ (0 : Nat) < 7 :=
  ⟨rfl, rfl, rfl, rfl, by decide, by decide⟩

/-! ## C4: backup rotation across sequences of mutating calls -/

/-- One mutating repository call, tagged with its call time. -/
inductive MutOp where
  | save : Nat → Snippet → MutOp
  | upd : Nat → String → SnippetUpdate → MutOp
  | del : Nat → String → MutOp
  | inc : Nat → String → MutOp
  | imp : Nat → ImportSource → Bool → (Nat → String) → MutOp

/-- Run one mutating call. -/
def runMutOp (st : RepoState) (fs : StorageFiles) : MutOp → OpResult
  | MutOp.save now s => saveSnippet st fs now s
  | MutOp.upd now id u => updateSnippet st fs now id u
  | MutOp.del now id => deleteSnippet st fs now id
  | MutOp.inc now id => incrementUsage st fs now id
  | MutOp.imp now src ce ids => importSnippets st fs now src ce ids

/-- Whether the call, if it succeeds, reaches `saveSnippets` (the snapshot
rewrite).  Every successful mutating call does except `incrementUsage` on an
absent id, which the source defines as a silent no-op. -/
def wroteSnapshot (st : RepoState) : MutOp → Bool
  | MutOp.inc _ id => mapHas st.snippets id
  | _ => true

/-- Run a sequence of mutating calls, requiring every call to succeed and to
rewrite the snapshot; `none` otherwise. -/
def runSeqW : RepoState → StorageFiles → List MutOp →
    Option (RepoState × StorageFiles)
  | st, fs, [] => some (st, fs)
  | st, fs, o :: os =>
      if (runMutOp st fs o).ok && wroteSnapshot st o then
        runSeqW (runMutOp st fs o).state (runMutOp st fs o).fs os
      else none

/-- Run a sequence of mutating calls, requiring only that every call
succeeds (no throw). -/
def runSeqOk : RepoState → StorageFiles → List MutOp →
    Option (RepoState × StorageFiles)
  | st, fs, [] => some (st, fs)
  | st, fs, o :: os =>
      if (runMutOp st fs o).ok then
        runSeqOk (runMutOp st fs o).state (runMutOp st fs o).fs os
      else none

theorem saveSnippetsFS_primary (fs : StorageFiles) (m : SMap Snippet) :
    (saveSnippetsFS fs m).primary = some (serialize m) := by
  unfold saveSnippetsFS
  cases fs.primary <;> simp

theorem saveSnippetsFS_backup (fs : StorageFiles) (m : SMap Snippet) :
    (saveSnippetsFS fs m).backup
      = (match fs.primary with
         | some c => some c
         | none => fs.backup) := by
  unfold saveSnippetsFS
  cases fs.primary <;> simp

/-- A successful snapshot-writing call leaves the files exactly as
`saveSnippets` of the new map does. -/
theorem runMutOp_writes (st : RepoState) (fs : StorageFiles) (o : MutOp)
    (hok : (runMutOp st fs o).ok = true)
    (hw : wroteSnapshot st o = true) :
    (runMutOp st fs o).fs
      = saveSnippetsFS fs (runMutOp st fs o).state.snippets := by
  cases o with
  | save now s =>
      simp only [runMutOp, saveSnippet] at hok ⊢
      by_cases hg : (rateGate st "saveSnippet" now).1 <;> simp [hg] at hok ⊢
  | upd now id u =>
      simp only [runMutOp, updateSnippet] at hok ⊢
      by_cases hg : (rateGate st "updateSnippet" now).1
      · simp only [hg, Bool.not_true, Bool.false_eq_true, if_false] at hok ⊢
        cases hget : mapGet (rateGate st "updateSnippet" now).2.snippets id <;>
          simp [hget] at hok ⊢
      · simp [hg] at hok
  | del now id =>
      simp only [runMutOp, deleteSnippet] at hok ⊢
      by_cases hg : (rateGate st "deleteSnippet" now).1
      · by_cases hh : mapHas (rateGate st "deleteSnippet" now).2.snippets id <;>
          simp [hg, hh] at hok ⊢
      · simp [hg] at hok
  | inc now id =>
      simp only [runMutOp, incrementUsage, wroteSnapshot] at hok hw ⊢
      by_cases hg : (rateGate st "incrementUsage" now).1
      · have hhas : mapHas st.snippets id = true := hw
        rw [mapHas] at hhas
        cases hget : mapGet (rateGate st "incrementUsage" now).2.snippets id with
        | none =>
            rw [rateGate_snippets] at hget
            rw [hget] at hhas
            simp at hhas
        | some s0 => simp [hg, hget]
      · simp [hg] at hok
  | imp now src ce ids =>
      simp only [runMutOp, importSnippets] at hok ⊢
      by_cases hg : (rateGate st "importSnippets" now).1
      · simp only [hg, Bool.not_true, Bool.false_eq_true, if_false] at hok ⊢
        by_cases hsz : 10 * 1024 * 1024 < src.size
        · simp [hsz] at hok
        · simp only [hsz, if_false] at hok ⊢
          by_cases hd : src.hasDangerousPatterns
          · simp [hd] at hok
          · simp only [hd, if_false] at hok ⊢
            cases hp : src.parsed with
            | parseError => simp [hp] at hok
            | nonArray => simp [hp] at hok
            | array elems =>
                simp only [hp] at hok ⊢
                by_cases hlen : 10000 < elems.length
                · simp [hlen] at hok
                · simp only [hlen, if_false] at hok ⊢
                  by_cases hacc :
                      ((elems.filter validateSnippet).enum.map
                        (fun p => acceptRaw p.2 (ids p.1) now)).length = 0
                  · rw [if_pos hacc] at hok
                    simp at hok
                  · rw [if_neg hacc] at hok ⊢
                    rfl
      · simp [hg] at hok

/-- After a nonempty successful writing sequence, the primary snapshot holds
the serialization of the current map. -/
theorem runSeqW_primary (ops : List MutOp) :
    ∀ st fs st' fs', runSeqW st fs ops = some (st', fs') → ops ≠ [] →
      fs'.primary = some (serialize st'.snippets) := by
  induction ops with
  | nil => intro st fs st' fs' _ hne; exact absurd rfl hne
  | cons o os ih =>
      intro st fs st' fs' h _
      unfold runSeqW at h
      by_cases hc : (runMutOp st fs o).ok && wroteSnapshot st o
      · rw [if_pos hc] at h
        obtain ⟨hok, hw⟩ := Bool.and_eq_true_iff.mp hc
        cases os with
        | nil =>
            unfold runSeqW at h
            have hst : (runMutOp st fs o).state = st' := by
              injection h with h
              exact congrArg Prod.fst h
            have hfs2 : (runMutOp st fs o).fs = fs' := by
              injection h with h
              exact congrArg Prod.snd h
            rw [← hfs2, ← hst, runMutOp_writes st fs o hok hw,
              saveSnippetsFS_primary]
        | cons o' os' => exact ih _ _ st' fs' h (by simp)
      · rw [if_neg hc] at h
        exact absurd h (by simp)

theorem runSeqW_append (xs ys : List MutOp) :
    ∀ st fs, runSeqW st fs (xs ++ ys)
      = (runSeqW st fs xs).bind (fun p => runSeqW p.1 p.2 ys) := by
  induction xs with
  | nil => intro st fs; simp [runSeqW]
  | cons o os ih =>
      intro st fs
      by_cases hc : (runMutOp st fs o).ok && wroteSnapshot st o <;>
        simp [runSeqW, hc, ih]

/-- C4, amended: starting from a fresh store (no snapshot, no backup), after
a sequence of N successful mutating calls **each of which rewrote the
snapshot** (i.e. excluding `incrementUsage` calls on an absent id, the
silent no-ops), the primary snapshot serializes the current map and the
backup equals the snapshot as of call N−1 (absent when N ≤ 1): each rewrite
first copies the existing primary verbatim into the backup slot. -/
theorem backup_equals_previous_snapshot (st0 : RepoState) (ops : List MutOp)
    (lastOp : MutOp) (st st' : RepoState) (fs fs' : StorageFiles)
    (h : runSeqW st0 freshFiles (ops ++ [lastOp]) = some (st, fs))
    (h' : runSeqW st0 freshFiles ops = some (st', fs')) :
    fs.primary = some (serialize st.snippets)
    ∧ fs.backup = (if ops.isEmpty then none
                   else some (serialize st'.snippets)) := by
  rw [runSeqW_append, h', Option.some_bind] at h
  unfold runSeqW at h
  by_cases hc : (runMutOp st' fs' lastOp).ok && wroteSnapshot st' lastOp
  · rw [if_pos hc] at h
    obtain ⟨hok, hw⟩ := Bool.and_eq_true_iff.mp hc
    unfold runSeqW at h
    injection h with h
    have hst : (runMutOp st' fs' lastOp).state = st := congrArg Prod.fst h
    have hfs : (runMutOp st' fs' lastOp).fs = fs := congrArg Prod.snd h
    have hwr := runMutOp_writes st' fs' lastOp hok hw
    rw [hst] at hwr
    rw [← hfs, hwr]
    constructor
    · exact saveSnippetsFS_primary fs' st.snippets
    · rw [saveSnippetsFS_backup]
      cases hops : ops with
      | nil =>
          rw [hops] at h'
          unfold runSeqW at h'
          injection h' with h'
          have hfr : fs' = freshFiles := (congrArg Prod.snd h').symm
          rw [hfr]
          simp [freshFiles]
      | cons o os =>
          have hp := runSeqW_primary ops st0 freshFiles st' fs' h'
            (by rw [hops]; simp)
          rw [hp]
          simp
  · rw [if_neg hc] at h
    exact absurd h (by simp)

/-- Witness for the amended C4: two `saveSnippet` calls from a fresh store.
After the second call the backup holds the snapshot written by the first. -/
def c4ops : List MutOp := [MutOp.save 0 sample1]

/-- The second (last) mutating call of the C4 witness. -/
def c4last : MutOp := MutOp.save 0 sample1b

/-- State after both C4-witness calls. -/
def c4st : RepoState :=
  ⟨[("id1", sample1b)], [("saveSnippet_0", ⟨2, 60000⟩)]⟩

/-- Files after both C4-witness calls. -/
def c4fs : StorageFiles :=
  ⟨some (serialize [("id1", sample1b)]), some (serialize [("id1", sample1)])⟩

/-- State after the first C4-witness call. -/
def c4st1 : RepoState :=
  ⟨[("id1", sample1)], [("saveSnippet_0", ⟨1, 60000⟩)]⟩

/-- Files after the first C4-witness call. -/
def c4fs1 : StorageFiles := ⟨some (serialize [("id1", sample1)]), none⟩

theorem backup_equals_previous_snapshot_witness :
    c4fs.primary = some (serialize c4st.snippets)
    ∧ c4fs.backup = (if c4ops.isEmpty then none
                     else some (serialize c4st1.snippets)) :=
  backup_equals_previous_snapshot emptyState c4ops c4last c4st c4st1 c4fs
    c4fs1 (by rfl) (by rfl)

/-- C4, counterexample to the unamended claim: `saveSnippet` then a
successful `incrementUsage` on an absent id are two successful mutating
calls, yet the backup is still absent, not equal to the snapshot state as of
call 1 (which serialized `[sample1]`). -/
theorem backup_claim_fails_on_noop_increment :
    (runSeqOk emptyState freshFiles
        [MutOp.save 0 sample1, MutOp.inc 0 "zz"]).map (fun p => p.2.backup)
      = some none
    ∧ (runSeqOk emptyState freshFiles [MutOp.save 0 sample1]).map
        (fun p => serialize p.1.snippets)
      = some (serialize [("id1", sample1)])
    ∧ (none : Option FileContent) ≠ some (serialize [("id1", sample1)]) :=
  ⟨rfl, rfl, by simp⟩

/-! ## C9: a rate-limit denial throws before any record-map mutation -/

/-- C9: whenever the rate gate denies an operation, that operation throws
(`ok = false`) with the record map — every record and hence the count —
exactly as before the call, and the files untouched.  This covers every
repository method of the embedding. -/
theorem denied_call_leaves_records_unchanged (st : RepoState)
    (fs : StorageFiles) (now : Nat) (s : Snippet) (id : String)
    (u : SnippetUpdate) (src : ImportSource) (ce : Bool)
    (ids : Nat → String) :
    ((rateGate st "saveSnippet" now).1 = false →
      (saveSnippet st fs now s).ok = false
      ∧ (saveSnippet st fs now s).state.snippets = st.snippets
      ∧ (saveSnippet st fs now s).fs = fs)
    ∧ ((rateGate st "updateSnippet" now).1 = false →
      (updateSnippet st fs now id u).ok = false
      ∧ (updateSnippet st fs now id u).state.snippets = st.snippets
      ∧ (updateSnippet st fs now id u).fs = fs)
    ∧ ((rateGate st "deleteSnippet" now).1 = false →
      (deleteSnippet st fs now id).ok = false
      ∧ (deleteSnippet st fs now id).state.snippets = st.snippets
      ∧ (deleteSnippet st fs now id).fs = fs)
    ∧ ((rateGate st "incrementUsage" now).1 = false →
      (incrementUsage st fs now id).ok = false
      ∧ (incrementUsage st fs now id).state.snippets = st.snippets
      ∧ (incrementUsage st fs now id).fs = fs)
    ∧ ((rateGate st "importSnippets" now).1 = false →
      (importSnippets st fs now src ce ids).ok = false
      ∧ (importSnippets st fs now src ce ids).state.snippets = st.snippets
      ∧ (importSnippets st fs now src ce ids).fs = fs)
    ∧ ((rateGate st "exportSnippets" now).1 = false →
      (exportSnippets st fs now).ok = false
      ∧ (exportSnippets st fs now).state.snippets = st.snippets
      ∧ (exportSnippets st fs now).fs = fs
      ∧ (exportSnippets st fs now).written = none)
    ∧ ((rateGate st "getAllSnippets" now).1 = false →
      (getAllSnippets st now).1 = false
      ∧ (getAllSnippets st now).2.1.snippets = st.snippets)
    ∧ ((rateGate st "getSnippet" now).1 = false →
      (getSnippet st now id).1 = false
      ∧ (getSnippet st now id).2.1.snippets = st.snippets) := by
  refine ⟨fun h => ?_, fun h => ?_, fun h => ?_, fun h => ?_, fun h => ?_,
    fun h => ?_, fun h => ?_, fun h => ?_⟩
  · exact ⟨by simp [saveSnippet, h, rateGate_snippets],
      by simp [saveSnippet, h, rateGate_snippets],
      by simp [saveSnippet, h, rateGate_snippets]⟩
  · exact ⟨by simp [updateSnippet, h, rateGate_snippets],
      by simp [updateSnippet, h, rateGate_snippets],
      by simp [updateSnippet, h, rateGate_snippets]⟩
  · exact ⟨by simp [deleteSnippet, h, rateGate_snippets],
      by simp [deleteSnippet, h, rateGate_snippets],
      by simp [deleteSnippet, h, rateGate_snippets]⟩
  · exact ⟨by simp [incrementUsage, h, rateGate_snippets],
      by simp [incrementUsage, h, rateGate_snippets],
      by simp [incrementUsage, h, rateGate_snippets]⟩
  · exact ⟨by simp [importSnippets, h, rateGate_snippets],
      by simp [importSnippets, h, rateGate_snippets],
      by simp [importSnippets, h, rateGate_snippets]⟩
  · exact ⟨by simp [exportSnippets, h, rateGate_snippets],
      by simp [exportSnippets, h, rateGate_snippets],
      by simp [exportSnippets, h, rateGate_snippets],
      by simp [exportSnippets, h, rateGate_snippets]⟩
  · exact ⟨by simp [getAllSnippets, h, rateGate_snippets], by simp [getAllSnippets, h, rateGate_snippets]⟩
  · exact ⟨by simp [getSnippet, h, rateGate_snippets], by simp [getSnippet, h, rateGate_snippets]⟩

/-- A state whose rate-limit map is saturated (count 100) for every
operation key of window 0. -/
def stSat : RepoState :=
  ⟨[("id1", sample1)],
   [("saveSnippet_0", ⟨100, 60000⟩), ("updateSnippet_0", ⟨100, 60000⟩),
    ("deleteSnippet_0", ⟨100, 60000⟩), ("incrementUsage_0", ⟨100, 60000⟩),
    ("importSnippets_0", ⟨100, 60000⟩), ("exportSnippets_0", ⟨100, 60000⟩),
    ("getAllSnippets_0", ⟨100, 60000⟩), ("getSnippet_0", ⟨100, 60000⟩)]⟩

/-- Witness for C9: against the saturated state every operation is denied
and the record map is exactly as before. -/
theorem denied_call_leaves_records_unchanged_witness :
    ((saveSnippet stSat freshFiles 0 sample1b).ok = false
      ∧ (saveSnippet stSat freshFiles 0 sample1b).state.snippets
          = stSat.snippets
      ∧ (saveSnippet stSat freshFiles 0 sample1b).fs = freshFiles)
    ∧ ((updateSnippet stSat freshFiles 0 "id1" emptyUpdate).ok = false
      ∧ (updateSnippet stSat freshFiles 0 "id1" emptyUpdate).state.snippets
          = stSat.snippets
      ∧ (updateSnippet stSat freshFiles 0 "id1" emptyUpdate).fs = freshFiles)
    ∧ ((deleteSnippet stSat freshFiles 0 "id1").ok = false
      ∧ (deleteSnippet stSat freshFiles 0 "id1").state.snippets
          = stSat.snippets
      ∧ (deleteSnippet stSat freshFiles 0 "id1").fs = freshFiles)
    ∧ ((incrementUsage stSat freshFiles 0 "id1").ok = false
      ∧ (incrementUsage stSat freshFiles 0 "id1").state.snippets
          = stSat.snippets
      ∧ (incrementUsage stSat freshFiles 0 "id1").fs = freshFiles)
    ∧ ((importSnippets stSat freshFiles 0 src21 false
          (fun _ => "f")).ok = false
      ∧ (importSnippets stSat freshFiles 0 src21 false
          (fun _ => "f")).state.snippets = stSat.snippets
      ∧ (importSnippets stSat freshFiles 0 src21 false
          (fun _ => "f")).fs = freshFiles)
    ∧ ((exportSnippets stSat freshFiles 0).ok = false
      ∧ (exportSnippets stSat freshFiles 0).state.snippets = stSat.snippets
      ∧ (exportSnippets stSat freshFiles 0).fs = freshFiles
      ∧ (exportSnippets stSat freshFiles 0).written = none)
    ∧ ((getAllSnippets stSat 0).1 = false
      ∧ (getAllSnippets stSat 0).2.1.snippets = stSat.snippets)
    ∧ ((getSnippet stSat 0 "id1").1 = false
      ∧ (getSnippet stSat 0 "id1").2.1.snippets = stSat.snippets) := by
  have h := denied_call_leaves_records_unchanged stSat freshFiles 0 sample1b
    "id1" emptyUpdate src21 false (fun _ => "f")
  exact ⟨h.1 (by decide), h.2.1 (by decide), h.2.2.1 (by decide),
    h.2.2.2.1 (by decide), h.2.2.2.2.1 (by decide),
    h.2.2.2.2.2.1 (by decide), h.2.2.2.2.2.2.1 (by decide),
    h.2.2.2.2.2.2.2 (by decide)⟩

/-! ## C7: PIN session expiry (src/snippetManager.ts, lines 102-232) -/

/-- `PIN_SESSION_DURATION = 30 * 60 * 1000`. -/
def PIN_SESSION_DURATION : Nat := 30 * 60 * 1000

/-- What `pinProtectionService.getPinProtectionStatus()` reports. -/
structure PinStatus where
  enabled : Bool
  locked : Bool
  remainingLockoutTime : Nat
  deriving Repr, DecidableEq

/-- The manager's session state: `isPinVerified` and `pinVerificationTime`. -/
structure PinSession where
  isPinVerified : Bool
  pinVerificationTime : Nat
  deriving Repr, DecidableEq

/-- The external interactions one `checkPinVerification` call can consume:
the PIN the user typed (`none` models cancel; the empty string is falsy in
the source), the vault's verdict on a PIN, whether the user picked
`Forgot PIN?` after an invalid PIN, and the emergency-recovery dialog
inputs. -/
structure PinPromptEnv where
  promptedPin : Option String
  verifyPin : String → Bool
  choseForgot : Bool
  emergencyCode : Option String
  verifyEmergencyCode : String → Bool
  newPin : Option String

/-- The `/^\d{4,8}$/` test on a replacement PIN. -/
def pinFormatValid (p : String) : Bool :=
  decide (4 ≤ p.length) && decide (p.length ≤ 8)
    && p.data.all Char.isDigit

/-- `handleForgotPin`, lines 166-232: verify the emergency code, demand a
well-formed new PIN, then re-enable protection and mark the session
verified now.  Every failure leaves the session untouched. -/
def handleForgotPin (env : PinPromptEnv) (sess : PinSession) (now : Nat) :
    Bool × PinSession :=
  match env.emergencyCode with
  | none => (false, sess)
  | some code =>
      if code = "" then (false, sess)
      else if env.verifyEmergencyCode code then
        match env.newPin with
        | none => (false, sess)
        | some np =>
            if np = "" then (false, sess)
            else if pinFormatValid np then (true, ⟨true, now⟩)
            else (false, sess)
      else (false, sess)

/-- `checkPinVerification`, lines 102-161: pass when protection is disabled;
deny while locked out; grant without prompting only when the session is
verified and `now - pinVerificationTime < PIN_SESSION_DURATION`; otherwise
prompt for the PIN, verify it (marking the session verified now), and on an
invalid PIN optionally enter the emergency-recovery flow.  (In the source
`Date.now() - time` can be negative only when `now < time`, where both the
JavaScript comparison and this `Nat` truncated subtraction grant.) -/
def checkPinVerification (status : PinStatus) (sess : PinSession) (now : Nat)
    (env : PinPromptEnv) : Bool × PinSession :=
  if !status.enabled then (true, sess)
  else if status.locked then (false, sess)
  else if sess.isPinVerified
      && decide (now - sess.pinVerificationTime < PIN_SESSION_DURATION) then
    (true, sess)
  else
    match env.promptedPin with
    | none => (false, sess)
    | some pin =>
        if pin = "" then (false, sess)
        else if env.verifyPin pin then (true, ⟨true, now⟩)
        else if env.choseForgot then handleForgotPin env sess now
        else (false, sess)

/-- C7: once the 30-minute expiry time of an `Unlocked` session has passed,
the very next `checkPinVerification` behaves (in its grant/deny verdict)
exactly as if the session were not verified at all — the expired session is
`NeedsVerification` and is never granted without re-verification, without
waiting for the 60-second background sweep. -/
theorem expired_session_needs_verification (status : PinStatus)
    (sess : PinSession) (now : Nat) (env : PinPromptEnv)
    (hen : status.enabled = true)
    (hexp : sess.pinVerificationTime + PIN_SESSION_DURATION ≤ now) :
    (checkPinVerification status sess now env).1
      = (checkPinVerification status ⟨false, sess.pinVerificationTime⟩ now
          env).1 := by
  have hlt : ¬ (now - sess.pinVerificationTime < PIN_SESSION_DURATION) := by
    omega
  unfold checkPinVerification
  simp only [hen, Bool.not_true, Bool.false_eq_true, if_false, hlt,
    decide_eq_true_eq, decide_eq_false hlt, Bool.and_false, Bool.false_and,
    Bool.false_eq_true]
  by_cases hlk : status.locked
  · simp [hlk]
  · simp only [hlk, if_false]
    cases env.promptedPin with
    | none => simp
    | some pin =>
        by_cases hp0 : pin = ""
        · simp [hp0]
        · simp only [hp0, if_false]
          by_cases hv : env.verifyPin pin
          · simp [hv]
          · simp only [hv, if_false, Bool.false_eq_true]
            by_cases hf : env.choseForgot
            · simp only [hf, if_true]
              unfold handleForgotPin
              cases env.emergencyCode with
              | none => simp
              | some code =>
                  by_cases hc0 : code = ""
                  · simp [hc0]
                  · simp only [hc0, if_false]
                    by_cases hvc : env.verifyEmergencyCode code
                    · simp only [hvc, if_true]
                      cases env.newPin with
                      | none => simp
                      | some np =>
                          by_cases hn0 : np = ""
                          · simp [hn0]
                          · simp only [hn0, if_false]
                            by_cases hfmt : pinFormatValid np <;> simp [hfmt]
                    · simp [hvc]
            · simp [hf]

/-- Witness for C7: PIN protection enabled, session verified at time 0,
checked exactly at expiry with a cancelled prompt — the expired session is
denied just like an unverified one. -/
theorem expired_session_needs_verification_witness :
    (checkPinVerification ⟨true, false, 0⟩ ⟨true, 0⟩ PIN_SESSION_DURATION
        ⟨none, fun _ => false, false, none, fun _ => false, none⟩).1
      = (checkPinVerification ⟨true, false, 0⟩ ⟨false, 0⟩ PIN_SESSION_DURATION
          ⟨none, fun _ => false, false, none, fun _ => false, none⟩).1 :=
  expired_session_needs_verification ⟨true, false, 0⟩ ⟨true, 0⟩
    PIN_SESSION_DURATION
    ⟨none, fun _ => false, false, none, fun _ => false, none⟩ rfl
    (by decide)

end BlockMate
